import Mathlib

/-!
Verification of the metrics-and-forecast pipeline of the dashboard
application (src/app.py): the velocity-metrics calculator
`calculate_velocity_metrics`, the least-squares growth forecaster
`predict_growth`, and the contributor ranking `top_contributors`.

Timestamps are modelled as instants in seconds (`Int`); a record field that
the Python code would fail to parse (missing key or `datetime.strptime`
raising `ValueError`) is modelled as `none`. Floating-point values are
modelled as exact rationals (`ℚ`).
-/

namespace Dashboard

/-- Commit record as consumed by `calculate_velocity_metrics`. The field
models the string `c['commit']['author']['date']`: `some t` stands for a
timestamp that `datetime.strptime` parses to the instant `t` (seconds),
`none` for a missing or unparseable one. -/
structure CommitRecord where
  authorDate : Option Int
deriving DecidableEq, Repr

/-- Pull-request record. `created_at` models the `created_at` string as for
commits; `merged_at` is the optional merge timestamp, `pr.get('merged_at')`
being truthy exactly when it is present. -/
structure PullRequestRecord where
  created_at : Option Int
  merged_at : Option Int
deriving DecidableEq, Repr

/-- Result dictionary of `calculate_velocity_metrics`. -/
structure VelocityMetrics where
  commits_last_week : Nat
  prs_last_week : Nat
  total_prs : Nat
  merged_prs : Nat
  pr_merge_rate : ℚ
deriving DecidableEq, Repr

/-- Model of `datetime.strptime(s, '%Y-%m-%dT%H:%M:%SZ')`: succeeds on a
parseable timestamp, and raises (`Except.error`, modelling the propagating
`ValueError`/`KeyError`) on a missing or malformed one. -/
def parseDate : Option Int → Except String Int
  | none => Except.error "time data does not match format"
  | some t => Except.ok t

/-- Left-to-right parsing of the date field of every record of a list, as
the generator expressions inside `calculate_velocity_metrics` do: the first
record whose date fails to parse raises, aborting the whole computation. -/
def parseAll {α : Type} (g : α → Option Int) : List α → Except String (List Int)
  | [] => Except.ok []
  | x :: xs =>
    match parseDate (g x) with
    | Except.error e => Except.error e
    | Except.ok d =>
      match parseAll g xs with
      | Except.error e => Except.error e
      | Except.ok ds => Except.ok (d :: ds)

/-- Model of `calculate_velocity_metrics(commits, prs)` from src/app.py,
lines 84-108, with the wall-clock instant `now` passed explicitly.
`last_week = now - timedelta(days=7)` becomes `now - 7 * 86400` seconds;
`commits_last_week` and `prs_last_week` count records with a parsed date
strictly later than that cutoff (a parse failure propagates as an
exception); `merged_prs` counts pull requests whose `merged_at` is present;
`pr_merge_rate = merged_prs / len(prs) * 100` when `prs` is non-empty and
`0` otherwise. -/
def calculate_velocity_metrics (commits : List CommitRecord)
    (prs : List PullRequestRecord) (now : Int) : Except String VelocityMetrics :=
  match parseAll (fun c => c.authorDate) commits with
  | Except.error e => Except.error e
  | Except.ok commitDates =>
    match parseAll (fun pr => pr.created_at) prs with
    | Except.error e => Except.error e
    | Except.ok prDates =>
      Except.ok
        { commits_last_week := commitDates.countP (fun d => decide (now - 7 * 86400 < d))
          prs_last_week := prDates.countP (fun d => decide (now - 7 * 86400 < d))
          total_prs := prs.length
          merged_prs := prs.countP (fun pr => pr.merged_at.isSome)
          pr_merge_rate :=
            if prs.isEmpty then 0
            else (prs.countP (fun pr => pr.merged_at.isSome) : ℚ) / (prs.length : ℚ) * 100 }

/-- Arithmetic mean of a list of rationals (zero on the empty list). -/
def mean (l : List ℚ) : ℚ := l.sum / (l.length : ℚ)

/-- Regression abscissae `np.arange(len(data))` as rationals. -/
def indices (n : ℕ) : List ℚ := (List.range n).map (fun i => (i : ℚ))

/-- Centered cross-sum `Σ (x - x̄) * (y - ȳ)` over the (index, value)
pairs of the history. -/
def sxy (ys : List ℚ) : ℚ :=
  (((indices ys.length).zip ys).map
    (fun p => (p.1 - mean (indices ys.length)) * (p.2 - mean ys))).sum

/-- Centered square sum `Σ (x - x̄) ^ 2` over the indices of the history. -/
def sxx (ys : List ℚ) : ℚ :=
  ((indices ys.length).map (fun x => (x - mean (indices ys.length)) ^ 2)).sum

/-- Slope of the ordinary-least-squares fit computed by
`LinearRegression().fit(X, y)` on `X = np.arange(len(data))`, `y = data`:
the unique minimiser of the sum of squared residuals,
`b = Σ (x - x̄)(y - ȳ) / Σ (x - x̄)²`. -/
def slope (ys : List ℚ) : ℚ := sxy ys / sxx ys

/-- Intercept of the ordinary-least-squares fit: `a = ȳ - b * x̄`. -/
def intercept (ys : List ℚ) : ℚ :=
  mean ys - slope ys * mean (indices ys.length)

/-- Model of `predict_growth(data, periods)` from src/app.py, lines
111-128: with fewer than 2 observations the input is returned unchanged;
otherwise the fitted line is evaluated at
`future_X = np.arange(len(data), len(data) + periods)`. -/
def predict_growth (ys : List ℚ) (periods : ℕ) : List ℚ :=
  if ys.length < 2 then ys
  else (List.range periods).map
    (fun j : ℕ => intercept ys + slope ys * ((ys.length : ℚ) + (j : ℚ)))

/-- Covariance of the (index, value) pairs, as the specification words it:
`cov(index, value) = Σ (x - x̄)(y - ȳ) / n`. -/
def specCov (ys : List ℚ) : ℚ := sxy ys / (ys.length : ℚ)

/-- Variance of the indices, as the specification words it:
`var(index) = Σ (x - x̄)² / n`. -/
def specVar (ys : List ℚ) : ℚ := sxx ys / (ys.length : ℚ)

/-- Slope as the specification words it: `b = cov(index, value) / var(index)`. -/
def specSlope (ys : List ℚ) : ℚ := specCov ys / specVar ys

/-- Intercept as the specification words it: `a = mean(value) - b * mean(index)`. -/
def specIntercept (ys : List ℚ) : ℚ :=
  mean ys - specSlope ys * mean (indices ys.length)

/-- Forecast as the specification words it: the line `a + b * index`
evaluated at indices `k, k+1, ..., k+periods-1`. -/
def specForecast (ys : List ℚ) (periods : ℕ) : List ℚ :=
  (List.range periods).map
    (fun j : ℕ => specIntercept ys + specSlope ys * ((ys.length : ℚ) + (j : ℚ)))

/-- Contributor record: `login` and `contributions` fields of a GitHub
contributor object. -/
structure Contributor where
  login : String
  contributions : Nat
deriving DecidableEq, Repr

/-- Insertion step of a stable descending sort by `contributions`: the new
element is placed before the first element whose count is not larger, so
among equal counts an element inserted later (i.e. earlier in the original
list) comes first. -/
def insertDesc (c : Contributor) : List Contributor → List Contributor
  | [] => [c]
  | d :: ds =>
    if d.contributions ≤ c.contributions then c :: d :: ds
    else d :: insertDesc c ds

/-- Stable sort by `contributions` descending; extensionally equal to
Python's `sorted(·, key=lambda x: x.get('contributions', 0), reverse=True)`,
which is the (unique) stable descending sort. -/
def sortByContributionsDesc : List Contributor → List Contributor
  | [] => []
  | c :: cs => insertDesc c (sortByContributionsDesc cs)

/-- Model of the `top_contributors` computation from src/app.py, lines
240-242: `sorted(contributors[:10], key=lambda x: x.get('contributions', 0),
reverse=True)` — the first 10 elements of the input, stably sorted by
contribution count descending. -/
def top_contributors (contributors : List Contributor) : List Contributor :=
  sortByContributionsDesc (contributors.take 10)

/-- Parsing every record succeeds, and yields exactly the present dates,
when every record has a parseable timestamp. -/
theorem parseAll_ok {α : Type} (g : α → Option Int) (l : List α)
    (h : ∀ x ∈ l, (g x).isSome) : parseAll g l = Except.ok (l.filterMap g) := by
  induction l with
  | nil => rfl
  | cons x xs ih =>
    obtain ⟨t, ht⟩ := Option.isSome_iff_exists.mp (h x (List.mem_cons_self x xs))
    have ihh := ih (fun y hy => h y (List.mem_cons_of_mem x hy))
    simp [parseAll, parseDate, ht, ihh, List.filterMap_cons]

/-- Parsing aborts with an error as soon as some record of the list has a
missing or unparseable timestamp. -/
theorem parseAll_error {α : Type} (g : α → Option Int) (l : List α)
    (h : ∃ x ∈ l, g x = none) : ∃ e, parseAll g l = Except.error e := by
  induction l with
  | nil => simp at h
  | cons x xs ih =>
    by_cases hx : g x = none
    · exact ⟨"time data does not match format", by simp [parseAll, hx, parseDate]⟩
    · obtain ⟨y, hy, hgy⟩ := h
      rcases List.mem_cons.mp hy with rfl | hmem
      · exact absurd hgy hx
      · obtain ⟨e, he⟩ := ih ⟨y, hmem, hgy⟩
        obtain ⟨t, ht⟩ := Option.ne_none_iff_exists'.mp hx
        exact ⟨e, by simp [parseAll, ht, parseDate, he]⟩

/-- C7: on empty commit and pull-request lists, `calculate_velocity_metrics`
raises no exception and returns exactly the all-zero metrics
`{commitsLastWeek := 0, pullRequestsLastWeek := 0, totalPullRequests := 0,
mergedPullRequests := 0, mergeRatePercent := 0}`, whatever the current
instant is. -/
theorem velocity_empty_inputs (now : Int) :
    calculate_velocity_metrics [] [] now = Except.ok ⟨0, 0, 0, 0, 0⟩ := rfl

/-- C1 counterexample: on a single commit record whose timestamp is missing
or unparseable, `calculate_velocity_metrics` does abort — it propagates the
parse error and returns no `VelocityMetrics` at all, contrary to the claim
that the malformed record is merely excluded and a result is returned. -/
theorem calc_velocity_raises_on_bad_timestamp :
    calculate_velocity_metrics [⟨none⟩] [] 0 =
      Except.error "time data does not match format" ∧
    ∀ m, calculate_velocity_metrics [⟨none⟩] [] 0 ≠ Except.ok m := by
  refine ⟨rfl, fun m h => ?_⟩
  rw [show calculate_velocity_metrics [⟨none⟩] [] 0 =
    Except.error "time data does not match format" from rfl] at h
  exact Except.noConfusion h

/-- C1 (amended): a commit or pull-request record with a missing or
unparseable timestamp aborts the whole computation —
`calculate_velocity_metrics` propagates the exception and returns an error
instead of a `VelocityMetrics` result. -/
theorem calc_velocity_error_propagation (commits : List CommitRecord)
    (prs : List PullRequestRecord) (now : Int)
    (h : (∃ c ∈ commits, c.authorDate = none) ∨
      (∃ pr ∈ prs, pr.created_at = none)) :
    ∃ e, calculate_velocity_metrics commits prs now = Except.error e := by
  rcases h with hc | hp
  · obtain ⟨e, he⟩ := parseAll_error (fun c => c.authorDate) commits hc
    exact ⟨e, by simp [calculate_velocity_metrics, he]⟩
  · by_cases hall : ∀ c ∈ commits, c.authorDate.isSome
    · obtain ⟨e, he⟩ := parseAll_error (fun pr => pr.created_at) prs hp
      exact ⟨e, by
        simp [calculate_velocity_metrics, parseAll_ok (fun c => c.authorDate) commits hall, he]⟩
    · push_neg at hall
      obtain ⟨c, hcmem, hnone⟩ := hall
      obtain ⟨e, he⟩ := parseAll_error (fun c => c.authorDate) commits
        ⟨c, hcmem, Option.not_isSome_iff_eq_none.mp hnone⟩
      exact ⟨e, by simp [calculate_velocity_metrics, he]⟩

theorem calc_velocity_error_propagation_witness :
    ((∃ c ∈ ([] : List CommitRecord), c.authorDate = none) ∨
      (∃ pr ∈ [PullRequestRecord.mk none none], pr.created_at = none)) ∧
    ∃ e, calculate_velocity_metrics [] [PullRequestRecord.mk none none] 0 =
      Except.error e :=
  ⟨Or.inr ⟨⟨none, none⟩, List.mem_singleton_self _, rfl⟩,
    calc_velocity_error_propagation [] [⟨none, none⟩] 0
      (Or.inr ⟨⟨none, none⟩, List.mem_singleton_self _, rfl⟩)⟩

/-- C5: whenever `calculate_velocity_metrics` returns a result, the merged
count never exceeds the total count, the merge rate lies in `[0, 100]`, and
the merge rate is `0` on an empty pull-request list (no division by
zero occurs). -/
theorem velocity_metrics_invariants (commits : List CommitRecord)
    (prs : List PullRequestRecord) (now : Int) (m : VelocityMetrics)
    (h : calculate_velocity_metrics commits prs now = Except.ok m) :
    m.merged_prs ≤ m.total_prs ∧ 0 ≤ m.pr_merge_rate ∧ m.pr_merge_rate ≤ 100 ∧
      (prs = [] → m.pr_merge_rate = 0) := by
  rcases hc : parseAll (fun c => c.authorDate) commits with e | cds
  · simp [calculate_velocity_metrics, hc] at h
  rcases hp : parseAll (fun pr => pr.created_at) prs with e | pds
  · simp [calculate_velocity_metrics, hc, hp] at h
  simp only [calculate_velocity_metrics, hc, hp, Except.ok.injEq] at h
  subst h
  refine ⟨List.countP_le_length _, ?_, ?_, ?_⟩
  · dsimp only
    by_cases hemp : prs.isEmpty
    · simp [hemp]
    · simp only [hemp, if_false]
      positivity
  · dsimp only
    by_cases hemp : prs.isEmpty
    · simp [hemp]
    · have hne : prs ≠ [] := by simpa [List.isEmpty_iff] using hemp
      have hlen : (0 : ℚ) < (prs.length : ℚ) := by
        exact_mod_cast List.length_pos.mpr hne
      have hle : ((prs.countP (fun pr => pr.merged_at.isSome)) : ℚ) ≤ (prs.length : ℚ) := by
        exact_mod_cast List.countP_le_length _
      simp only [hemp, if_false]
      calc ((prs.countP (fun pr => pr.merged_at.isSome)) : ℚ) / (prs.length : ℚ) * 100
          ≤ 1 * 100 :=
            mul_le_mul_of_nonneg_right ((div_le_one hlen).mpr hle) (by norm_num)
        _ = 100 := by norm_num
  · intro hnil
    subst hnil
    simp

theorem velocity_metrics_invariants_witness :
    calculate_velocity_metrics [] [⟨some 0, some 0⟩] 1000000 =
      Except.ok ⟨0, 0, 1, 1, 100⟩ ∧
    ((VelocityMetrics.mk 0 0 1 1 100).merged_prs ≤
        (VelocityMetrics.mk 0 0 1 1 100).total_prs ∧
      0 ≤ (VelocityMetrics.mk 0 0 1 1 100).pr_merge_rate ∧
      (VelocityMetrics.mk 0 0 1 1 100).pr_merge_rate ≤ 100 ∧
      ([⟨some 0, some 0⟩] = ([] : List PullRequestRecord) →
        (VelocityMetrics.mk 0 0 1 1 100).pr_merge_rate = 0)) :=
  ⟨by norm_num [calculate_velocity_metrics, parseAll, parseDate],
    velocity_metrics_invariants [] [⟨some 0, some 0⟩] 1000000 ⟨0, 0, 1, 1, 100⟩
      (by norm_num [calculate_velocity_metrics, parseAll, parseDate])⟩

/-- C6: when every timestamp parses, `calculate_velocity_metrics` returns a
result whose `commits_last_week` counts exactly the commits whose author
date is strictly later than `now - 7` days, and whose `prs_last_week`
counts exactly the pull requests created strictly later than that cutoff;
the strict inequality excludes a record sitting exactly at the cutoff. -/
theorem velocity_last_week_counts (commits : List CommitRecord)
    (prs : List PullRequestRecord) (now : Int)
    (hc : ∀ c ∈ commits, c.authorDate.isSome)
    (hp : ∀ pr ∈ prs, pr.created_at.isSome) :
    ∃ m, calculate_velocity_metrics commits prs now = Except.ok m ∧
      m.commits_last_week =
        (commits.filterMap (fun c => c.authorDate)).countP
          (fun d => decide (now - 7 * 86400 < d)) ∧
      m.prs_last_week =
        (prs.filterMap (fun pr => pr.created_at)).countP
          (fun d => decide (now - 7 * 86400 < d)) := by
  have hok : calculate_velocity_metrics commits prs now = Except.ok
      ⟨(commits.filterMap (fun c => c.authorDate)).countP
          (fun d => decide (now - 7 * 86400 < d)),
        (prs.filterMap (fun pr => pr.created_at)).countP
          (fun d => decide (now - 7 * 86400 < d)),
        prs.length, prs.countP (fun pr => pr.merged_at.isSome),
        if prs.isEmpty then 0
        else (prs.countP (fun pr => pr.merged_at.isSome) : ℚ) / (prs.length : ℚ) * 100⟩ := by
    rw [calculate_velocity_metrics, parseAll_ok (fun c => c.authorDate) commits hc,
      parseAll_ok (fun pr => pr.created_at) prs hp]
  exact ⟨_, hok, rfl, rfl⟩

theorem velocity_last_week_counts_witness :
    (∀ c ∈ [CommitRecord.mk (some 604800), CommitRecord.mk (some 604801),
        CommitRecord.mk (some 0)], c.authorDate.isSome) ∧
    (∀ pr ∈ [PullRequestRecord.mk (some 1209599) none], pr.created_at.isSome) ∧
    ∃ m, calculate_velocity_metrics
        [⟨some 604800⟩, ⟨some 604801⟩, ⟨some 0⟩] [⟨some 1209599, none⟩] 1209600 =
        Except.ok m ∧
      m.commits_last_week =
        (([⟨some 604800⟩, ⟨some 604801⟩, ⟨some 0⟩] :
            List CommitRecord).filterMap (fun c => c.authorDate)).countP
          (fun d => decide (1209600 - 7 * 86400 < d)) ∧
      m.prs_last_week =
        (([⟨some 1209599, none⟩] :
            List PullRequestRecord).filterMap (fun pr => pr.created_at)).countP
          (fun d => decide (1209600 - 7 * 86400 < d)) :=
  ⟨by decide, by decide,
    velocity_last_week_counts [⟨some 604800⟩, ⟨some 604801⟩, ⟨some 0⟩]
      [⟨some 1209599, none⟩] 1209600 (by decide) (by decide)⟩

/-- Inserting an element grows the length by one. -/
theorem length_insertDesc (c : Contributor) (l : List Contributor) :
    (insertDesc c l).length = l.length + 1 := by
  induction l with
  | nil => rfl
  | cons d ds ih =>
    by_cases hd : d.contributions ≤ c.contributions
    · simp [insertDesc, hd]
    · simp [insertDesc, hd, ih]

/-- Sorting preserves the length. -/
theorem length_sortByContributionsDesc (l : List Contributor) :
    (sortByContributionsDesc l).length = l.length := by
  induction l with
  | nil => rfl
  | cons c cs ih => simp [sortByContributionsDesc, length_insertDesc, ih]

/-- Membership in an insertion. -/
theorem mem_insertDesc {x c : Contributor} {l : List Contributor} :
    x ∈ insertDesc c l ↔ x = c ∨ x ∈ l := by
  induction l with
  | nil => simp [insertDesc]
  | cons d ds ih =>
    by_cases hd : d.contributions ≤ c.contributions
    · simp [insertDesc, hd]
    · simp [insertDesc, hd, ih]
      tauto

/-- Membership is preserved by the sort. -/
theorem mem_sortByContributionsDesc {x : Contributor} {l : List Contributor} :
    x ∈ sortByContributionsDesc l ↔ x ∈ l := by
  induction l with
  | nil => simp [sortByContributionsDesc]
  | cons c cs ih => simp [sortByContributionsDesc, mem_insertDesc, ih]

/-- Insertion preserves the descending order. -/
theorem pairwise_insertDesc {c : Contributor} {l : List Contributor}
    (h : l.Pairwise (fun a b => b.contributions ≤ a.contributions)) :
    (insertDesc c l).Pairwise (fun a b => b.contributions ≤ a.contributions) := by
  induction l with
  | nil => simp [insertDesc]
  | cons d ds ih =>
    obtain ⟨hd1, hd2⟩ := List.pairwise_cons.mp h
    by_cases hd : d.contributions ≤ c.contributions
    · rw [insertDesc, if_pos hd]
      refine List.pairwise_cons.mpr ⟨?_, h⟩
      intro x hx
      rcases List.mem_cons.mp hx with rfl | hx
      · exact hd
      · exact le_trans (hd1 x hx) hd
    · rw [insertDesc, if_neg hd]
      refine List.pairwise_cons.mpr ⟨?_, ih hd2⟩
      intro x hx
      rcases mem_insertDesc.mp hx with rfl | hx
      · exact le_of_not_le hd
      · exact hd1 x hx

/-- The sort output is descending in the contribution counts. -/
theorem pairwise_sortByContributionsDesc (l : List Contributor) :
    (sortByContributionsDesc l).Pairwise
      (fun a b => b.contributions ≤ a.contributions) := by
  induction l with
  | nil => simp [sortByContributionsDesc]
  | cons c cs ih => exact pairwise_insertDesc ih

/-- Filtering the elements of one contribution count through an insertion:
the inserted element lands in front of the equal-count elements already
present, because insertion only passes over strictly larger counts. -/
theorem filter_insertDesc (c : Contributor) (l : List Contributor) (n : ℕ) :
    (insertDesc c l).filter (fun d => d.contributions == n) =
      if c.contributions == n then c :: l.filter (fun d => d.contributions == n)
      else l.filter (fun d => d.contributions == n) := by
  induction l with
  | nil =>
    by_cases hc : c.contributions = n <;> simp [insertDesc, hc]
  | cons d ds ih =>
    by_cases hd : d.contributions ≤ c.contributions
    · rw [insertDesc, if_pos hd]
      by_cases hc : c.contributions = n <;> simp [List.filter_cons, hc]
    · rw [insertDesc, if_neg hd]
      by_cases hc : c.contributions = n
      · have hdn : d.contributions ≠ n := by omega
        simp [List.filter_cons, hdn, ih, hc]
      · by_cases hdn : d.contributions = n <;> simp [List.filter_cons, hdn, ih, hc]

/-- Stability of the sort: the elements of any fixed contribution count
appear in the output in exactly their original relative order. -/
theorem filter_sortByContributionsDesc (l : List Contributor) (n : ℕ) :
    (sortByContributionsDesc l).filter (fun d => d.contributions == n) =
      l.filter (fun d => d.contributions == n) := by
  induction l with
  | nil => rfl
  | cons c cs ih =>
    rw [sortByContributionsDesc, filter_insertDesc]
    by_cases hc : c.contributions = n <;> simp [List.filter_cons, hc, ih]

/-- C2 counterexample: with eleven contributors whose highest-count member
sits at position 10 (zero-based), the most prolific contributor of the
whole input does not appear in the output at all: the code ranks only
`contributors[:10]`, so the result is not the top-K of the whole input. -/
theorem top_contributors_misses_late_high_contributor :
    (⟨"k", 100⟩ : Contributor) ∈
      ([⟨"a", 1⟩, ⟨"b", 1⟩, ⟨"c", 1⟩, ⟨"d", 1⟩, ⟨"e", 1⟩, ⟨"f", 1⟩, ⟨"g", 1⟩,
        ⟨"h", 1⟩, ⟨"i", 1⟩, ⟨"j", 1⟩, ⟨"k", 100⟩] : List Contributor) ∧
    (⟨"k", 100⟩ : Contributor) ∉
      top_contributors
        [⟨"a", 1⟩, ⟨"b", 1⟩, ⟨"c", 1⟩, ⟨"d", 1⟩, ⟨"e", 1⟩, ⟨"f", 1⟩, ⟨"g", 1⟩,
          ⟨"h", 1⟩, ⟨"i", 1⟩, ⟨"j", 1⟩, ⟨"k", 100⟩] ∧
    ∀ c ∈ top_contributors
        [⟨"a", 1⟩, ⟨"b", 1⟩, ⟨"c", 1⟩, ⟨"d", 1⟩, ⟨"e", 1⟩, ⟨"f", 1⟩, ⟨"g", 1⟩,
          ⟨"h", 1⟩, ⟨"i", 1⟩, ⟨"j", 1⟩, ⟨"k", 100⟩],
      c.contributions = 1 := by
  refine ⟨by decide, by decide, by decide⟩

/-- C2 (amended): `top_contributors` fixes K = 10 and ranks only the first
10 elements of the input: the output has length `min 10 |input|`, is sorted
by contribution count descending, and is stable — the elements of each
contribution count appear in their original relative order — but it is the
stable descending sort of the input's first 10 elements, not a top-K
selection from the whole input. -/
theorem top_contributors_sorts_first_ten (l : List Contributor) :
    (top_contributors l).length = min 10 l.length ∧
    (top_contributors l).Pairwise (fun a b => b.contributions ≤ a.contributions) ∧
    ∀ n : ℕ, (top_contributors l).filter (fun c => c.contributions == n) =
      (l.take 10).filter (fun c => c.contributions == n) := by
  refine ⟨?_, pairwise_sortByContributionsDesc _, fun n => ?_⟩
  · rw [top_contributors, length_sortByContributionsDesc, List.length_take]
  · exact filter_sortByContributionsDesc _ n

/-- C9: the output of `top_contributors` depends only on the first 10
elements of the input — it is unchanged when the input is truncated to its
first 10 elements, and every element of the output comes from those first
10 positions, so a contributor at position 10 or later never appears
regardless of their contribution count. -/
theorem top_contributors_first_ten_only (l : List Contributor) :
    top_contributors l = top_contributors (l.take 10) ∧
    ∀ x ∈ top_contributors l, x ∈ l.take 10 := by
  constructor
  · simp [top_contributors, List.take_take]
  · intro x hx
    exact mem_sortByContributionsDesc.mp hx

theorem top_contributors_first_ten_only_witness :
    (⟨"a", 5⟩ : Contributor) ∈ top_contributors [⟨"a", 5⟩, ⟨"b", 3⟩] ∧
    (⟨"a", 5⟩ : Contributor) ∈ ([⟨"a", 5⟩, ⟨"b", 3⟩] : List Contributor).take 10 :=
  ⟨by decide,
    (top_contributors_first_ten_only [⟨"a", 5⟩, ⟨"b", 3⟩]).2 _ (by decide)⟩

/-- Division of the two n-normalised sums agrees with the ratio of the raw
sums on a non-empty history (the common factor 1/n cancels; with a zero
denominator both sides are the junk value 0). -/
theorem specSlope_eq_slope {ys : List ℚ} (h : ys ≠ []) :
    specSlope ys = slope ys := by
  have hn : ((ys.length : ℚ)) ≠ 0 := by
    have := List.length_pos.mpr h
    positivity
  by_cases hd : sxx ys = 0
  · rw [specSlope, specVar, specCov, slope, hd]
    simp
  · rw [specSlope, specVar, specCov, slope]
    field_simp

/-- The two intercept computations agree on a non-empty history. -/
theorem specIntercept_eq_intercept {ys : List ℚ} (h : ys ≠ []) :
    specIntercept ys = intercept ys := by
  rw [specIntercept, intercept, specSlope_eq_slope h]

/-- C3: on a history of at least 2 observations and a positive number of
periods, `predict_growth` returns exactly `periods` values, equal to the
ordinary-least-squares line `a + b * index` of the spec (with
`b = cov(index, value) / var(index)` and `a = mean(value) - b * mean(index)`)
evaluated at indices `k, ..., k + periods - 1`; in particular, on the
noiseless linear input `[1, 2, 3, 4, 5]` with 5 periods it returns exactly
`[6, 7, 8, 9, 10]`. -/
theorem predict_growth_ols_spec :
    (∀ (ys : List ℚ) (periods : ℕ), 2 ≤ ys.length → 0 < periods →
      (predict_growth ys periods).length = periods ∧
        predict_growth ys periods = specForecast ys periods) ∧
    predict_growth [1, 2, 3, 4, 5] 5 = [6, 7, 8, 9, 10] := by
  constructor
  · intro ys periods hlen _hper
    have hne : ys ≠ [] := by
      intro hnil
      subst hnil
      simp at hlen
    have hnot : ¬ ys.length < 2 := by omega
    constructor
    · simp [predict_growth, hnot]
    · rw [predict_growth, if_neg hnot, specForecast,
        specSlope_eq_slope hne, specIntercept_eq_intercept hne]
  · norm_num [predict_growth, intercept, slope, sxy, sxx, mean, indices,
      List.range_succ]

theorem predict_growth_ols_spec_witness :
    2 ≤ ([1, 2, 3, 4, 5] : List ℚ).length ∧ 0 < 5 ∧
    ((predict_growth [1, 2, 3, 4, 5] 5).length = 5 ∧
      predict_growth [1, 2, 3, 4, 5] 5 = specForecast [1, 2, 3, 4, 5] 5) :=
  ⟨by norm_num, by norm_num,
    predict_growth_ols_spec.1 [1, 2, 3, 4, 5] 5 (by norm_num) (by norm_num)⟩

/-- C4: on a history of fewer than 2 points, `predict_growth` returns its
input unchanged instead of failing — no extrapolation is attempted. -/
theorem predict_growth_short_history_unchanged (ys : List ℚ) (periods : ℕ)
    (h : ys.length < 2) : predict_growth ys periods = ys := by
  rw [predict_growth, if_pos h]

theorem predict_growth_short_history_unchanged_witness :
    (([] : List ℚ).length < 2 ∧ predict_growth [] 30 = []) ∧
    ([(5 : ℚ)].length < 2 ∧ predict_growth [(5 : ℚ)] 30 = [(5 : ℚ)]) :=
  ⟨⟨by norm_num, predict_growth_short_history_unchanged [] 30 (by norm_num)⟩,
    ⟨by norm_num, predict_growth_short_history_unchanged [(5 : ℚ)] 30 (by norm_num)⟩⟩

/-- C8: `predict_growth` is deterministic — two calls on identical inputs
yield identical outputs; no randomness influences the result. -/
theorem predict_growth_deterministic (ys₁ ys₂ : List ℚ) (p₁ p₂ : ℕ)
    (hy : ys₁ = ys₂) (hp : p₁ = p₂) :
    predict_growth ys₁ p₁ = predict_growth ys₂ p₂ := by
  rw [hy, hp]

theorem predict_growth_deterministic_witness :
    ([1] : List ℚ) = [1] ∧ (3 : ℕ) = 3 ∧
    predict_growth [1] 3 = predict_growth [1] 3 :=
  ⟨rfl, rfl, predict_growth_deterministic [1] [1] 3 3 rfl rfl⟩

/-- C10: on a history of at least 2 points and at least 2 periods, the
forecast is an arithmetic progression — each pair of consecutive predicted
values differs by the fitted slope — and it is monotonically non-decreasing
exactly when the fitted slope is non-negative. -/
theorem predict_growth_arithmetic_progression (ys : List ℚ) (p : ℕ)
    (hlen : 2 ≤ ys.length) (hp : 2 ≤ p) :
    (∀ j : ℕ, j + 1 < p →
      (predict_growth ys p).getD (j + 1) 0 - (predict_growth ys p).getD j 0 =
        slope ys) ∧
    (List.Chain' (fun a b => a ≤ b) (predict_growth ys p) ↔ 0 ≤ slope ys) := by
  have hnot : ¬ ys.length < 2 := by omega
  have hpg : predict_growth ys p = (List.range p).map
      (fun j : ℕ => intercept ys + slope ys * ((ys.length : ℚ) + (j : ℚ))) := by
    rw [predict_growth, if_neg hnot]
  have hget : ∀ j : ℕ, j < p → (predict_growth ys p).getD j 0 =
      intercept ys + slope ys * ((ys.length : ℚ) + (j : ℚ)) := by
    intro j hj
    rw [hpg, List.getD_eq_getElem?_getD, List.getElem?_map, List.getElem?_range hj]
    rfl
  constructor
  · intro j hj
    rw [hget (j + 1) hj, hget j (by omega)]
    push_cast
    ring
  · rw [hpg, List.chain'_map]
    obtain ⟨n, rfl⟩ : ∃ n, p = n + 1 := ⟨p - 1, by omega⟩
    rw [List.chain'_range_succ]
    constructor
    · intro h
      have h0 := h 0 (by omega)
      have hle : intercept ys + slope ys * ((ys.length : ℚ) + ((0 : ℕ) : ℚ)) ≤
          intercept ys + slope ys * ((ys.length : ℚ) + ((0 + 1 : ℕ) : ℚ)) := h0
      push_cast at hle
      linarith
    · intro hs m _hm
      have hstep : intercept ys + slope ys * ((ys.length : ℚ) + ((m + 1 : ℕ) : ℚ)) =
          intercept ys + slope ys * ((ys.length : ℚ) + ((m : ℕ) : ℚ)) + slope ys := by
        push_cast
        ring
      rw [hstep]
      linarith

theorem predict_growth_arithmetic_progression_witness :
    2 ≤ ([1, 2, 3, 4, 5] : List ℚ).length ∧ 2 ≤ 2 ∧ 0 + 1 < 2 ∧
    ((predict_growth [1, 2, 3, 4, 5] 2).getD (0 + 1) 0 -
        (predict_growth [1, 2, 3, 4, 5] 2).getD 0 0 = slope [1, 2, 3, 4, 5]) ∧
    (List.Chain' (fun a b => a ≤ b) (predict_growth [1, 2, 3, 4, 5] 2) ↔
      0 ≤ slope [1, 2, 3, 4, 5]) :=
  ⟨by norm_num, by norm_num, by norm_num,
    (predict_growth_arithmetic_progression [1, 2, 3, 4, 5] 2
      (by norm_num) (by norm_num)).1 0 (by norm_num),
    (predict_growth_arithmetic_progression [1, 2, 3, 4, 5] 2
      (by norm_num) (by norm_num)).2⟩

end Dashboard
